import Mathlib

/-!
Verification of the trading-compliance core of the kalshi-dcm-demo repository:
the in-memory `mock.Store` (wallets, orders, positions, alerts, halts, audit
log) and the `compliance.SurveillanceEngine`.

Modelling conventions:
* Go `float64` USD amounts are modelled exactly, in integer cents
  (`USD := Int`, the value being the dollar amount scaled by 100).  Every
  dollar amount the compliance core itself computes is a whole number of
  cents, and on whole-cent values the Go `float64` arithmetic used by the
  store (sums and differences well below 2^53) is exact, so the scaling is a
  faithful exact model on this domain.  Two places in the source divide or
  multiply by 100 to convert between cents and dollars; under the scaling
  these conversions are the identity and are noted where they occur.  The
  one fractional constant, the `0.8` position-limit warning threshold, is
  handled by the exact cross-multiplied comparison (noted at its use).
* Go `time.Time` values are modelled as `Int` seconds; each operation that
  calls `time.Now()` in the source takes an explicit `now : Int` parameter.
* Go maps are modelled as association lists (`List (String × α)`) with
  `lookupMap` / `insertMap` mirroring map read / map assignment.
* Go struct fields keep their names, camel-cased (`AvailableUSD` becomes
  `availableUSD`); the field named `Type` in Go becomes `typ` because `Type`
  is reserved in Lean.
* `fmt.Sprintf`-built description strings are modelled by their constant
  prefix; the numeric interpolations are elided (no claim depends on them).
* JSON snapshots passed to `LogAudit` are modelled as opaque strings.
-/

namespace KalshiDCM

/-- USD amounts (Go `float64`), modelled exactly in integer cents. -/
abbrev USD := Int

/-- Association-list model of a Go map read: `m[k]`. -/
def lookupMap {α : Type} : List (String × α) → String → Option α
  | [], _ => none
  | (k', v) :: rest, k => if k' = k then some v else lookupMap rest k

/-- Association-list model of a Go map assignment `m[k] = v`:
replaces the binding for `k` if present, otherwise appends it. -/
def insertMap {α : Type} : List (String × α) → String → α → List (String × α)
  | [], k, v => [(k, v)]
  | (k', v') :: rest, k, v =>
    if k' = k then (k, v) :: rest else (k', v') :: insertMap rest k v

/-! ## String constants from `models` (Go string-typed enums) -/

def UserStatusKYCPending : String := "kyc_pending"
def UserStatusVerified : String := "verified"
def UserStatusSuspended : String := "suspended"
def UserStatusBanned : String := "banned"

def OrderSideYes : String := "yes"
def OrderSideNo : String := "no"

def OrderStatusPending : String := "pending"
def OrderStatusOpen : String := "open"
def OrderStatusFilled : String := "filled"
def OrderStatusCancelled : String := "cancelled"
def OrderStatusRejected : String := "rejected"
def OrderStatusExpired : String := "expired"

def TxTypeDeposit : String := "deposit"
def TxTypeSettlement : String := "settlement"
def TxStatusCompleted : String := "completed"

def AuditActionCreate : String := "create"
def AuditActionTrade : String := "trade"
def AuditActionDeposit : String := "deposit"
def AuditActionHalt : String := "halt"

/-! ## Data model (`backend/internal/models/models.go`) -/

/-- `models.User`, restricted to the fields the compliance core reads. -/
structure User where
  id : String
  email : String
  status : String
  positionLimitUSD : USD
  createdAt : Int
  updatedAt : Int
  deriving Repr, DecidableEq

/-- `models.Wallet`. -/
structure Wallet where
  id : String
  userID : String
  availableUSD : USD
  lockedUSD : USD
  pendingUSD : USD
  totalDeposited : USD
  totalWithdrawn : USD
  createdAt : Int
  updatedAt : Int
  deriving Repr, DecidableEq

/-- `models.Transaction`. -/
structure Transaction where
  id : String
  walletID : String
  userID : String
  typ : String
  status : String
  amountUSD : USD
  balanceBefore : USD
  balanceAfter : USD
  reference : String
  description : String
  createdAt : Int
  completedAt : Option Int
  ipAddress : String
  deriving Repr, DecidableEq

/-- `models.Order`. -/
structure Order where
  id : String
  userID : String
  marketTicker : String
  eventTicker : String
  side : String
  typ : String
  status : String
  quantity : Int
  filledQuantity : Int
  priceCents : Int
  filledPriceCents : Int
  collateralUSD : USD
  createdAt : Int
  updatedAt : Int
  filledAt : Option Int
  submitIP : String
  deriving Repr, DecidableEq

/-- `models.Position`. -/
structure Position where
  id : String
  userID : String
  marketTicker : String
  eventTicker : String
  side : String
  quantity : Int
  avgPriceCents : Int
  costBasisUSD : USD
  createdAt : Int
  updatedAt : Int
  closedAt : Option Int
  deriving Repr, DecidableEq

/-- `models.ComplianceAlert`. -/
structure ComplianceAlert where
  id : String
  typ : String
  severity : String
  userID : String
  marketTicker : String
  description : String
  status : String
  createdAt : Int
  deriving Repr, DecidableEq

/-- `models.EmergencyHalt`. -/
structure EmergencyHalt where
  id : String
  marketTicker : String
  reason : String
  initiatedBy : String
  startedAt : Int
  endsAt : Option Int
  isActive : Bool
  deriving Repr, DecidableEq

/-- `models.AuditEntry` (before/after snapshots kept as opaque strings). -/
structure AuditEntry where
  id : String
  timestamp : Int
  userID : String
  action : String
  entityType : String
  entityID : String
  oldValue : String
  newValue : String
  ipAddress : String
  userAgent : String
  description : String
  deriving Repr, DecidableEq

/-- Typed errors of the `mock` package (`errors.New` values). -/
inductive StoreError where
  | userNotFound
  | userExists
  | walletNotFound
  | insufficientFunds
  | orderNotFound
  | positionNotFound
  | kycRequired
  | userSuspended
  | marketClosed
  | positionLimitExceeded
  | tradingHalted
  deriving Repr, DecidableEq

/-- The in-memory `mock.Store`, restricted to the collections the claims
touch (users, wallets, transactions, orders, positions, audit log, alerts,
halts, id counter). -/
structure Store where
  users : List (String × User)
  wallets : List (String × Wallet)
  transactions : List (String × Transaction)
  txByWallet : List (String × List String)
  orders : List (String × Order)
  ordersByUser : List (String × List String)
  positions : List (String × Position)
  positionsByUser : List (String × List String)
  auditLog : List AuditEntry
  alerts : List ComplianceAlert
  halts : List (String × EmergencyHalt)
  idCounter : Int
  deriving Repr, DecidableEq

/-- `mock.NewStore`: all collections empty. -/
def NewStore : Store :=
  { users := [], wallets := [], transactions := [], txByWallet := []
    orders := [], ordersByUser := [], positions := [], positionsByUser := []
    auditLog := [], alerts := [], halts := [], idCounter := 0 }

/-! ## Store operations (`mock` package) -/

/-- `Store.generateID`: bumps the id counter and returns
`prefix_<unix-time>_<counter>`. -/
def Store.generateID (s : Store) (pfx : String) (now : Int) : String × Store :=
  let counter := s.idCounter + 1
  (pfx ++ "_" ++ toString now ++ "_" ++ toString counter,
   { s with idCounter := counter })

/-- `Store.LogAudit`: appends one immutable audit entry.  The JSON-marshalled
`oldVal`/`newVal` snapshots are passed as opaque strings (empty for Go `nil`). -/
def Store.LogAudit (s : Store) (userID action entityType entityID : String)
    (oldVal newVal : Option String) (ip ua desc : String) (now : Int) : Store :=
  let (entryID, s₁) := s.generateID "audit" now
  let entry : AuditEntry :=
    { id := entryID, timestamp := now, userID, action, entityType, entityID
      oldValue := oldVal.getD "", newValue := newVal.getD ""
      ipAddress := ip, userAgent := ua, description := desc }
  { s₁ with auditLog := s₁.auditLog ++ [entry] }

/-- `Store.GetWallet`. -/
def Store.GetWallet (s : Store) (userID : String) : Except StoreError Wallet :=
  match lookupMap s.wallets userID with
  | none => .error .walletNotFound
  | some w => .ok w

/-- `Store.GetUser`. -/
def Store.GetUser (s : Store) (userID : String) : Except StoreError User :=
  match lookupMap s.users userID with
  | none => .error .userNotFound
  | some u => .ok u

/-- `Store.GetUserExposure`: the wallet's current locked balance, `0` when the
wallet is missing. -/
def Store.GetUserExposure (s : Store) (userID : String) : USD :=
  match lookupMap s.wallets userID with
  | none => 0
  | some w => w.lockedUSD

/-- `Store.Deposit`: adds funds to the wallet, records one Transaction and one
audit entry. -/
def Store.Deposit (s : Store) (userID : String) (amountUSD : USD)
    (reference ip : String) (now : Int) : Except StoreError Transaction × Store :=
  match lookupMap s.wallets userID with
  | none => (.error .walletNotFound, s)
  | some wallet =>
    let balanceBefore := wallet.availableUSD
    let wallet' := { wallet with
      availableUSD := wallet.availableUSD + amountUSD
      totalDeposited := wallet.totalDeposited + amountUSD
      updatedAt := now }
    let s₁ := { s with wallets := insertMap s.wallets userID wallet' }
    let (txID, s₂) := s₁.generateID "tx" now
    let tx : Transaction :=
      { id := txID, walletID := wallet.id, userID, typ := TxTypeDeposit
        status := TxStatusCompleted, amountUSD, balanceBefore
        balanceAfter := wallet'.availableUSD, reference
        description := "ACH Deposit", createdAt := now, completedAt := some now
        ipAddress := ip }
    let s₃ := { s₂ with
      transactions := insertMap s₂.transactions tx.id tx
      txByWallet := insertMap s₂.txByWallet wallet.id
        ((lookupMap s₂.txByWallet wallet.id).getD [] ++ [tx.id]) }
    let s₄ := s₃.LogAudit userID AuditActionDeposit "transaction" tx.id
      none (some "tx") ip "" "Deposited" now
    (.ok tx, s₄)

/-- `Store.LockFunds`: fails with `insufficientFunds` if `available < amount`;
otherwise moves `amount` from available to locked. -/
def Store.LockFunds (s : Store) (userID : String) (amountUSD : USD)
    (_orderID : String) (now : Int) : Except StoreError Unit × Store :=
  match lookupMap s.wallets userID with
  | none => (.error .walletNotFound, s)
  | some wallet =>
    if wallet.availableUSD < amountUSD then (.error .insufficientFunds, s)
    else
      let wallet' := { wallet with
        availableUSD := wallet.availableUSD - amountUSD
        lockedUSD := wallet.lockedUSD + amountUSD
        updatedAt := now }
      (.ok (), { s with wallets := insertMap s.wallets userID wallet' })

/-- `Store.UnlockFunds`: moves `amount` from locked back to available,
with no balance check. -/
def Store.UnlockFunds (s : Store) (userID : String) (amountUSD : USD)
    (_orderID : String) (now : Int) : Except StoreError Unit × Store :=
  match lookupMap s.wallets userID with
  | none => (.error .walletNotFound, s)
  | some wallet =>
    let wallet' := { wallet with
      lockedUSD := wallet.lockedUSD - amountUSD
      availableUSD := wallet.availableUSD + amountUSD
      updatedAt := now }
    (.ok (), { s with wallets := insertMap s.wallets userID wallet' })

/-- `Store.SettleFunds`: releases `lockedAmount` from locked, credits
`settlementAmount` to available, records a settlement Transaction. -/
def Store.SettleFunds (s : Store) (userID : String)
    (lockedAmount settlementAmount : USD) (orderID _ip : String) (now : Int) :
    Except StoreError Unit × Store :=
  match lookupMap s.wallets userID with
  | none => (.error .walletNotFound, s)
  | some wallet =>
    let wallet' := { wallet with
      lockedUSD := wallet.lockedUSD - lockedAmount
      availableUSD := wallet.availableUSD + settlementAmount
      updatedAt := now }
    let s₁ := { s with wallets := insertMap s.wallets userID wallet' }
    let (txID, s₂) := s₁.generateID "tx" now
    let tx : Transaction :=
      { id := txID, walletID := wallet.id, userID, typ := TxTypeSettlement
        status := TxStatusCompleted, amountUSD := settlementAmount
        balanceBefore := 0, balanceAfter := wallet'.availableUSD
        reference := orderID, description := "Settlement"
        createdAt := now, completedAt := some now, ipAddress := "" }
    let s₃ := { s₂ with
      transactions := insertMap s₂.transactions tx.id tx
      txByWallet := insertMap s₂.txByWallet wallet.id
        ((lookupMap s₂.txByWallet wallet.id).getD [] ++ [tx.id]) }
    (.ok (), s₃)

/-- `Store.CreateComplianceAlert`: appends one alert with status `"open"`. -/
def Store.CreateComplianceAlert (s : Store)
    (userID marketTicker alertType severity description : String) (now : Int) :
    ComplianceAlert × Store :=
  let (alertID, s₁) := s.generateID "alert" now
  let alert : ComplianceAlert :=
    { id := alertID, typ := alertType, severity, userID, marketTicker
      description, status := "open", createdAt := now }
  (alert, { s₁ with alerts := s₁.alerts ++ [alert] })

/-- `Store.IsTradingHalted`: true if the `"GLOBAL"` halt or the
market-specific halt is active. -/
def Store.IsTradingHalted (s : Store) (marketTicker : String) : Bool :=
  (match lookupMap s.halts "GLOBAL" with
   | some halt => halt.isActive
   | none => false) ||
  (match lookupMap s.halts marketTicker with
   | some halt => halt.isActive
   | none => false)

/-- `Store.InitiateEmergencyHalt`: stores a freshly-built active halt record
under the market ticker, or under `"GLOBAL"` when the ticker is empty, and
audit-logs it. -/
def Store.InitiateEmergencyHalt (s : Store)
    (marketTicker reason initiatedBy : String) (now : Int) :
    EmergencyHalt × Store :=
  let key := if marketTicker = "" then "GLOBAL" else marketTicker
  let (haltID, s₁) := s.generateID "halt" now
  let halt : EmergencyHalt :=
    { id := haltID, marketTicker, reason, initiatedBy
      startedAt := now, endsAt := none, isActive := true }
  let s₂ := { s₁ with halts := insertMap s₁.halts key halt }
  let s₃ := s₂.LogAudit "system" AuditActionHalt "halt" halt.id
    none (some "halt") "" "" "Emergency halt initiated" now
  (halt, s₃)

/-- `Store.LiftEmergencyHalt`: marks the halt under the key inactive. -/
def Store.LiftEmergencyHalt (s : Store) (marketTicker : String) (now : Int) :
    Except StoreError Unit × Store :=
  let key := if marketTicker = "" then "GLOBAL" else marketTicker
  match lookupMap s.halts key with
  | none => (.ok (), s)
  | some halt =>
    let halt' := { halt with isActive := false, endsAt := some now }
    (.ok (), { s with halts := insertMap s.halts key halt' })

/-- Collateral (100% margin) as computed inside `Store.CreateOrder` and
`SurveillanceEngine.ValidateOrder`: `quantity * price` cents for `yes`,
`quantity * (100 - price)` cents for `no`.  The source then converts with
`float64(collateralCents) / 100.0`; under the cent scaling that conversion
is the identity. -/
def requiredCollateralUSD (side : String) (quantity priceCents : Int) : USD :=
  if side = OrderSideYes then quantity * priceCents
  else quantity * (100 - priceCents)

/-- `Store.CreateOrder`: halt check, user-status checks, collateral
computation, position-limit check (raising a `position_limit` alert on
breach), fund locking, then order persistence plus one audit entry. -/
def Store.CreateOrder (s : Store)
    (userID marketTicker eventTicker side orderType : String)
    (quantity priceCents : Int) (ip : String) (now : Int) :
    Except StoreError Order × Store :=
  if s.IsTradingHalted marketTicker then (.error .tradingHalted, s)
  else
    match lookupMap s.users userID with
    | none => (.error .userNotFound, s)
    | some user =>
      if user.status = UserStatusSuspended ∨ user.status = UserStatusBanned then
        (.error .userSuspended, s)
      else if user.status ≠ UserStatusVerified then (.error .kycRequired, s)
      else
        let collateralUSD := requiredCollateralUSD side quantity priceCents
        let currentExposure := s.GetUserExposure userID
        if user.positionLimitUSD < currentExposure + collateralUSD then
          (.error .positionLimitExceeded,
           (s.CreateComplianceAlert userID marketTicker
             "position_limit" "high" "Order would exceed position limit" now).2)
        else
          match s.LockFunds userID collateralUSD "" now with
          | (.error e, s₁) => (.error e, s₁)
          | (.ok _, s₁) =>
            let (orderID, s₂) := s₁.generateID "order" now
            let order : Order :=
              { id := orderID, userID, marketTicker, eventTicker, side
                typ := orderType, status := OrderStatusPending, quantity
                filledQuantity := 0, priceCents, filledPriceCents := 0
                collateralUSD, createdAt := now, updatedAt := now
                filledAt := none, submitIP := ip }
            let s₃ := { s₂ with
              orders := insertMap s₂.orders order.id order
              ordersByUser := insertMap s₂.ordersByUser userID
                ((lookupMap s₂.ordersByUser userID).getD [] ++ [order.id]) }
            let s₄ := s₃.LogAudit userID AuditActionTrade "order" order.id
              none (some "order") ip "" "Order placed" now
            (.ok order, s₄)

/-- The first open position of the user matching the order's market and side
(the loop over `positionsByUser` in `createOrUpdatePosition`). -/
def findOpenPositionID (s : Store) (posIDs : List String)
    (marketTicker side : String) : Option String :=
  match posIDs with
  | [] => none
  | pid :: rest =>
    match lookupMap s.positions pid with
    | some pos =>
      if pos.marketTicker = marketTicker ∧ pos.side = side ∧ pos.closedAt = none
      then some pid
      else findOpenPositionID s rest marketTicker side
    | none => findOpenPositionID s rest marketTicker side

/-- `Store.createOrUpdatePosition`: merges a fill into the matching open
position (cost-weighted average price) or opens a new position. -/
def Store.createOrUpdatePosition (s : Store) (order : Order) (now : Int) :
    Store :=
  let posIDs := (lookupMap s.positionsByUser order.userID).getD []
  match findOpenPositionID s posIDs order.marketTicker order.side with
  | some pid =>
    match lookupMap s.positions pid with
    | some pos =>
      let totalCost := pos.costBasisUSD + order.collateralUSD
      let totalQty := pos.quantity + order.filledQuantity
      -- `int(totalCost * 100 / float64(totalQty))`: with `totalCost` in
      -- cents the `* 100` dollar rescaling cancels, and the `int(…)`
      -- conversion is truncation toward zero, i.e. `Int.tdiv`.
      let pos' := { pos with
        quantity := totalQty
        costBasisUSD := totalCost
        avgPriceCents := totalCost.tdiv totalQty
        updatedAt := now }
      { s with positions := insertMap s.positions pid pos' }
    | none => s
  | none =>
    let (pid, s₁) := s.generateID "pos" now
    let pos : Position :=
      { id := pid, userID := order.userID, marketTicker := order.marketTicker
        eventTicker := order.eventTicker, side := order.side
        quantity := order.filledQuantity
        avgPriceCents := order.filledPriceCents
        costBasisUSD := order.collateralUSD
        createdAt := now, updatedAt := now, closedAt := none }
    { s₁ with
      positions := insertMap s₁.positions pid pos
      positionsByUser := insertMap s₁.positionsByUser order.userID
        (posIDs ++ [pid]) }

/-- `Store.MockFillOrder`: unconditionally marks the order filled (no check of
its current status) and folds it into the matching position. -/
def Store.MockFillOrder (s : Store) (orderID : String) (fillPrice : Int)
    (now : Int) : Except StoreError Unit × Store :=
  match lookupMap s.orders orderID with
  | none => (.error .orderNotFound, s)
  | some order =>
    let order' := { order with
      status := OrderStatusFilled
      filledQuantity := order.quantity
      filledPriceCents := fillPrice
      filledAt := some now
      updatedAt := now }
    let s₁ := { s with orders := insertMap s.orders orderID order' }
    (.ok (), s₁.createOrUpdatePosition order' now)

/-! ## Surveillance engine (`compliance/surveillance.go`) -/

/-- `compliance.SurveillanceEngine`'s own mutable state: thresholds and the
per-user validation-call timestamps used by the rate limiter. -/
structure SurveillanceEngine where
  maxPositionUSD : USD
  maxOrdersPerMinute : Nat
  orderCounts : List (String × List Int)
  deriving Repr, DecidableEq

/-- `NewSurveillanceEngine`'s engine-local defaults. -/
def NewSurveillanceEngine : SurveillanceEngine :=
  { maxPositionUSD := 25000, maxOrdersPerMinute := 60, orderCounts := [] }

/-- `compliance.PreTradeCheck`. -/
structure PreTradeCheck where
  passed : Bool
  errors : List String
  warnings : List String
  requiredMargin : USD
  availableMargin : USD
  deriving Repr, DecidableEq

/-- Error/warning messages of `ValidateOrder` (the `fmt.Sprintf` numeric
interpolations are elided). -/
def msgWalletNotFound : String := "Wallet not found"
def msgInsufficientFunds : String := "Insufficient funds"
def msgUserNotFound : String := "User not found"
def msgPositionLimitExceeded : String := "Position limit exceeded"
def msgRateLimited : String := "Order rate limit exceeded. Please wait."
def msgTradingHalted : String := "Trading is currently halted for this market"
def msgApproachingLimit : String := "Approaching position limit"

/-- `SurveillanceEngine.isRateLimited`: prunes the user's timestamps to the
trailing 60-second window, appends `now`, and reports whether the window now
holds more than `maxOrdersPerMinute` entries. -/
def SurveillanceEngine.isRateLimited (e : SurveillanceEngine)
    (userID : String) (now : Int) : Bool × SurveillanceEngine :=
  let cutoff := now - 60
  let timestamps := (lookupMap e.orderCounts userID).getD []
  let recent := (timestamps.filter fun ts => cutoff < ts) ++ [now]
  (recent.length > e.maxOrdersPerMinute,
   { e with orderCounts := insertMap e.orderCounts userID recent })

/-- `SurveillanceEngine.ValidateOrder`: margin computation, then (unless it
returns early on a missing wallet or user) funds check, position-limit check,
rate-limit check, halt check — accumulated, not short-circuited — and the
80%-of-limit warning. -/
def SurveillanceEngine.ValidateOrder (e : SurveillanceEngine) (store : Store)
    (userID marketTicker side : String) (quantity priceCents : Int)
    (now : Int) : PreTradeCheck × SurveillanceEngine :=
  let requiredMargin := requiredCollateralUSD side quantity priceCents
  match lookupMap store.wallets userID with
  | none =>
    ({ passed := false, errors := [msgWalletNotFound], warnings := []
       requiredMargin, availableMargin := 0 }, e)
  | some wallet =>
    let availableMargin := wallet.availableUSD
    let errs₁ := if wallet.availableUSD < requiredMargin
      then [msgInsufficientFunds] else []
    match lookupMap store.users userID with
    | none =>
      ({ passed := false, errors := errs₁ ++ [msgUserNotFound], warnings := []
         requiredMargin, availableMargin }, e)
    | some user =>
      let currentExposure := store.GetUserExposure userID
      let newExposure := currentExposure + requiredMargin
      let errs₂ := errs₁ ++ (if user.positionLimitUSD < newExposure
        then [msgPositionLimitExceeded] else [])
      let (limited, e') := e.isRateLimited userID now
      let errs₃ := errs₂ ++ (if limited then [msgRateLimited] else [])
      let errs₄ := errs₃ ++ (if store.IsTradingHalted marketTicker
        then [msgTradingHalted] else [])
      -- `newExposure > user.PositionLimitUSD * 0.8`, written in the exact
      -- cross-multiplied integer-cent form.
      let warns := if user.positionLimitUSD * 8 < newExposure * 10
        then [msgApproachingLimit] else []
      ({ passed := errs₄.isEmpty, errors := errs₄, warnings := warns
         requiredMargin, availableMargin }, e')

/-- `SurveillanceEngine.detectWashTrading`'s inner pairwise scan: for each
order, compare it with every later order in the list. -/
def washPair (a b : Order) : Bool :=
  a.side ≠ b.side && a.marketTicker = b.marketTicker &&
    b.createdAt - a.createdAt < 60

/-- The nested loop of `detectWashTrading` over index pairs `i < j`. -/
def washScan : List Order → Bool
  | [] => false
  | o :: rest => rest.any (washPair o) || washScan rest

/-- `SurveillanceEngine.detectWashTrading` (it reads no engine state). -/
def detectWashTrading (orders : List Order) : Bool :=
  if orders.length < 2 then false else washScan orders

/-- `SurveillanceEngine.detectSpoofing`: more than 3 cancelled orders with
quantity over 100. -/
def detectSpoofing (orders : List Order) : Bool :=
  (orders.filter fun o =>
    o.status = OrderStatusCancelled && o.quantity > 100).length > 3

/-- `SurveillanceEngine.detectLayering`: more than 5 distinct limit prices
among `open` orders. -/
def detectLayering (orders : List Order) : Bool :=
  ((orders.filter fun o => o.status = OrderStatusOpen).map
    (fun o => o.priceCents)).dedup.length > 5

/-- `SurveillanceEngine.AnalyzeTradePattern`: runs the three pattern checks,
creating at most one alert per triggered check, and returns the created
alerts (it reads no engine state beyond the store). -/
def AnalyzeTradePattern (store : Store) (userID marketTicker : String)
    (orders : List Order) (now : Int) : List ComplianceAlert × Store :=
  let (alerts₁, s₁) :=
    if detectWashTrading orders then
      let (a, s') := store.CreateComplianceAlert userID marketTicker
        "wash_trade" "high" "Potential wash trading detected" now
      ([a], s')
    else ([], store)
  let (alerts₂, s₂) :=
    if detectSpoofing orders then
      let (a, s') := s₁.CreateComplianceAlert userID marketTicker
        "spoofing" "high" "Potential spoofing detected" now
      (alerts₁ ++ [a], s')
    else (alerts₁, s₁)
  if detectLayering orders then
    let (a, s') := s₂.CreateComplianceAlert userID marketTicker
      "layering" "medium" "Potential layering detected" now
    (alerts₂ ++ [a], s')
  else (alerts₂, s₂)

/-! ## Concrete fixtures for witnesses and counterexamples -/

deriving instance DecidableEq for Except

/-- A concrete wallet for user `"u1"` with the given balances. -/
def testWallet (avail locked : USD) : Wallet :=
  { id := "wallet_0_1", userID := "u1", availableUSD := avail
    lockedUSD := locked, pendingUSD := 0, totalDeposited := 0
    totalWithdrawn := 0, createdAt := 0, updatedAt := 0 }

/-- A concrete verified user `"u1"` with the given position limit. -/
def testUser (limit : USD) : User :=
  { id := "u1", email := "u1@example.com", status := UserStatusVerified
    positionLimitUSD := limit, createdAt := 0, updatedAt := 0 }

/-- A store holding the verified user `"u1"` (default $25,000 limit) with a
$100 wallet. -/
def baseStore : Store :=
  { NewStore with
    users := [("u1", testUser 2500000)]
    wallets := [("u1", testWallet 10000 0)]
    idCounter := 1 }

/-- A concrete active global halt record. -/
def globalHaltRecord : EmergencyHalt :=
  { id := "halt_0_1", marketTicker := "", reason := "maintenance"
    initiatedBy := "ops", startedAt := 0, endsAt := none, isActive := true }

/-- A store whose only record is an active halt under the `"GLOBAL"` key. -/
def globalHaltStore : Store :=
  { NewStore with halts := [("GLOBAL", globalHaltRecord)], idCounter := 1 }

/-- The order produced by `CreateOrder` on `baseStore` for
`yes 50 @ 60¢` at time 7 (collateral 3000 cents). -/
def c1Order : Order :=
  { id := "order_7_2", userID := "u1", marketTicker := "M", eventTicker := "E"
    side := OrderSideYes, typ := "limit", status := OrderStatusPending
    quantity := 50, filledQuantity := 0, priceCents := 60
    filledPriceCents := 0, collateralUSD := 3000, createdAt := 7
    updatedAt := 7, filledAt := none, submitIP := "ip" }

/-- The store produced by that successful `CreateOrder` call. -/
def c1Store : Store :=
  (baseStore.CreateOrder "u1" "M" "E" OrderSideYes "limit" 50 60 "ip" 7).2

/-! ## Sequences of balance-affecting Store operations -/

/-- One of the Store calls named by the wallet invariant claim, with its
arguments (`Deposit`, `LockFunds`, `UnlockFunds`, `SettleFunds`,
`CreateOrder`). -/
inductive StoreOp where
  | deposit (userID : String) (amountUSD : USD) (reference ip : String)
  | lockFunds (userID : String) (amountUSD : USD) (orderID : String)
  | unlockFunds (userID : String) (amountUSD : USD) (orderID : String)
  | settleFunds (userID : String) (lockedAmount settlementAmount : USD)
      (orderID ip : String)
  | createOrder (userID marketTicker eventTicker side orderType : String)
      (quantity priceCents : Int) (ip : String)
  deriving Repr, DecidableEq

/-- Run one Store call at time `now`, keeping only the state. -/
def Store.applyOp (s : Store) (op : StoreOp) (now : Int) : Store :=
  match op with
  | .deposit u a ref ip => (s.Deposit u a ref ip now).2
  | .lockFunds u a oid => (s.LockFunds u a oid now).2
  | .unlockFunds u a oid => (s.UnlockFunds u a oid now).2
  | .settleFunds u l a oid ip => (s.SettleFunds u l a oid ip now).2
  | .createOrder u mt et sd ot q p ip => (s.CreateOrder u mt et sd ot q p ip now).2

/-- Run a sequence of timestamped Store calls. -/
def Store.applyOps : Store → List (StoreOp × Int) → Store
  | s, [] => s
  | s, (op, t) :: rest => Store.applyOps (s.applyOp op t) rest

/-- The wallet invariant of the spec: every wallet in the store has
non-negative available and locked balances. -/
def WalletsNonneg (s : Store) : Prop :=
  ∀ kw ∈ s.wallets, 0 ≤ kw.2.availableUSD ∧ 0 ≤ kw.2.lockedUSD

/-- Preconditions under which one Store call preserves `WalletsNonneg`
(the amendment forced by the unchecked subtractions in `UnlockFunds` /
`SettleFunds` and the unchecked signs of `Deposit` / `LockFunds` /
`CreateOrder` amounts): deposited and locked amounts are non-negative, an
unlock removes at most what is locked, a settlement releases at most what is
locked and credits a non-negative amount, and an order's computed collateral
is non-negative. -/
def Store.opOk (s : Store) : StoreOp → Bool
  | .deposit _ a _ _ => decide (0 ≤ a)
  | .lockFunds _ a _ => decide (0 ≤ a)
  | .unlockFunds u a _ =>
    match lookupMap s.wallets u with
    | none => true
    | some w => decide (0 ≤ a) && decide (a ≤ w.lockedUSD)
  | .settleFunds u l a _ _ =>
    decide (0 ≤ a) &&
      (match lookupMap s.wallets u with
       | none => true
       | some w => decide (l ≤ w.lockedUSD))
  | .createOrder _ _ _ side _ q p _ =>
    decide (0 ≤ requiredCollateralUSD side q p)

/-- `opOk` holding at every step along a sequence of Store calls. -/
def Store.okTrace : Store → List (StoreOp × Int) → Bool
  | _, [] => true
  | s, (op, t) :: rest => s.opOk op && (s.applyOp op t).okTrace rest

/-- A precondition-respecting sequence exercising all five balance-affecting
operations on `baseStore`. -/
def c2Trace : List (StoreOp × Int) :=
  [(.deposit "u1" 5000 "ref" "ip", 1),
   (.lockFunds "u1" 3000 "o1", 2),
   (.unlockFunds "u1" 1000 "o1", 3),
   (.settleFunds "u1" 2000 1500 "o1" "ip", 4),
   (.createOrder "u1" "M" "E" OrderSideYes "limit" 10 50 "ip", 5)]

/-- A store whose verified user `"u1"` has a $100 position limit (and a
$100 wallet), so a $150-collateral order breaches the limit. -/
def c4Store : Store := { baseStore with users := [("u1", testUser 10000)] }

/-- The wallet-only operations among `StoreOp` (those that touch no order). -/
def StoreOp.isWalletOp : StoreOp → Bool
  | .deposit .. => true
  | .lockFunds .. => true
  | .unlockFunds .. => true
  | .settleFunds .. => true
  | .createOrder .. => false

/-- A cancelled order for `"u1"` in market `"M"` (`yes 10 @ 50¢`,
collateral $5). -/
def c6Order : Order :=
  { id := "o1", userID := "u1", marketTicker := "M", eventTicker := "E"
    side := OrderSideYes, typ := "limit", status := OrderStatusCancelled
    quantity := 10, filledQuantity := 0, priceCents := 50
    filledPriceCents := 0, collateralUSD := 500, createdAt := 0
    updatedAt := 0, filledAt := none, submitIP := "" }

/-- An open position of 5 contracts for the same user, market and side. -/
def c6Pos : Position :=
  { id := "p1", userID := "u1", marketTicker := "M", eventTicker := "E"
    side := OrderSideYes, quantity := 5, avgPriceCents := 50
    costBasisUSD := 250, createdAt := 0, updatedAt := 0, closedAt := none }

/-- A store holding the cancelled order `"o1"` and the open position
`"p1"`. -/
def c6Store : Store :=
  { baseStore with
    orders := [("o1", c6Order)]
    ordersByUser := [("u1", ["o1"])]
    positions := [("p1", c6Pos)]
    positionsByUser := [("u1", ["p1"])] }

/-- Go-map wellformedness of an association list: one binding per key. -/
def keysNodup {α : Type} (m : List (String × α)) : Prop :=
  (m.map Prod.fst).Nodup

/-- `keysNodup` is decidable. -/
instance {α : Type} (m : List (String × α)) : Decidable (keysNodup m) :=
  inferInstanceAs (Decidable (m.map Prod.fst).Nodup)

/-- A pre-existing active market-specific halt for `"MKT"`. -/
def c7OldHalt : EmergencyHalt :=
  { id := "halt_0_1", marketTicker := "MKT", reason := "r0"
    initiatedBy := "a0", startedAt := 0, endsAt := none, isActive := true }

/-- A store already holding the active halt for `"MKT"`. -/
def c7Store : Store :=
  { NewStore with halts := [("MKT", c7OldHalt)], idCounter := 1 }

/-- The trigger condition in the claim's own words (for comparison with the
code's `detectWashTrading`): some pair of orders for the same market with
opposite sides whose creation timestamps are within 60 seconds of each
other — an absolute-difference condition, symmetric in the pair. -/
def specWashCondition (orders : List Order) : Bool :=
  orders.any fun a => orders.any fun b =>
    a.side ≠ b.side && a.marketTicker = b.marketTicker &&
      (b.createdAt - a.createdAt).natAbs < 60

/-- A `yes` order in market `"M"` created at t = 1000 s. -/
def c8o1 : Order :=
  { id := "a1", userID := "u1", marketTicker := "M", eventTicker := "E"
    side := OrderSideYes, typ := "limit", status := OrderStatusPending
    quantity := 1, filledQuantity := 0, priceCents := 50
    filledPriceCents := 0, collateralUSD := 50, createdAt := 1000
    updatedAt := 1000, filledAt := none, submitIP := "" }

/-- A `no` order in market `"M"` created at t = 0 s — 1000 seconds away
from `c8o1`. -/
def c8o2 : Order :=
  { id := "a2", userID := "u1", marketTicker := "M", eventTicker := "E"
    side := OrderSideNo, typ := "limit", status := OrderStatusPending
    quantity := 1, filledQuantity := 0, priceCents := 50
    filledPriceCents := 0, collateralUSD := 50, createdAt := 0
    updatedAt := 0, filledAt := none, submitIP := "" }

/-- `WalletsNonneg` is decidable (it is a bounded quantifier over the
wallet table). -/
instance (s : Store) : Decidable (WalletsNonneg s) :=
  inferInstanceAs (Decidable
    (∀ kw ∈ s.wallets, 0 ≤ kw.2.availableUSD ∧ 0 ≤ kw.2.lockedUSD))

/-! ## Lemmas about the association-list map model -/

theorem lookupMap_insertMap_self {α : Type} (m : List (String × α))
    (k : String) (v : α) : lookupMap (insertMap m k v) k = some v := by
  induction m with
  | nil => simp [insertMap, lookupMap]
  | cons q rest ih =>
    obtain ⟨k', v'⟩ := q
    by_cases h : k' = k <;> simp [insertMap, lookupMap, h, ih]

theorem lookupMap_insertMap_ne {α : Type} (m : List (String × α))
    (k k' : String) (v : α) (h : k' ≠ k) :
    lookupMap (insertMap m k v) k' = lookupMap m k' := by
  induction m with
  | nil => simp [insertMap, lookupMap, Ne.symm h]
  | cons q rest ih =>
    obtain ⟨k₀, v₀⟩ := q
    by_cases h₀ : k₀ = k
    · subst h₀
      simp [insertMap, lookupMap, Ne.symm h]
    · simp only [insertMap, if_neg h₀]
      by_cases h₁ : k₀ = k' <;> simp [lookupMap, h₁, ih]

theorem mem_insertMap {α : Type} {m : List (String × α)} {k : String} {v : α}
    {q : String × α} (hq : q ∈ insertMap m k v) : q = (k, v) ∨ q ∈ m := by
  induction m with
  | nil => simpa [insertMap] using hq
  | cons p rest ih =>
    obtain ⟨k₀, v₀⟩ := p
    by_cases h₀ : k₀ = k
    · rw [insertMap, if_pos h₀] at hq
      rcases List.mem_cons.mp hq with hq' | hq'
      · exact .inl hq'
      · exact .inr (List.mem_cons_of_mem _ hq')
    · rw [insertMap, if_neg h₀] at hq
      rcases List.mem_cons.mp hq with hq' | hq'
      · exact .inr (hq' ▸ List.mem_cons_self _ _)
      · rcases ih hq' with hq'' | hq''
        · exact .inl hq''
        · exact .inr (List.mem_cons_of_mem _ hq'')

theorem lookupMap_mem {α : Type} {m : List (String × α)} {k : String} {v : α}
    (h : lookupMap m k = some v) : (k, v) ∈ m := by
  induction m with
  | nil => simp [lookupMap] at h
  | cons p rest ih =>
    obtain ⟨k₀, v₀⟩ := p
    by_cases h₀ : k₀ = k
    · subst h₀
      simp only [lookupMap, if_pos trivial, eq_self_iff_true, if_true,
        Option.some.injEq] at h
      rw [← h]
      exact List.mem_cons_self _ _
    · simp only [lookupMap, if_neg h₀] at h
      exact List.mem_cons_of_mem _ (ih h)

/-! ## Characterization lemmas for wallet operations -/

/-- A successful `LockFunds` found a wallet with sufficient available funds
and moved `amount` from available to locked. -/
theorem LockFunds_ok {s : Store} {u : String} {a : USD} {oid : String}
    {t : Int} {s₁ : Store} (h : s.LockFunds u a oid t = (.ok (), s₁)) :
    ∃ w, lookupMap s.wallets u = some w ∧ ¬ w.availableUSD < a ∧
      s₁ = { s with wallets := insertMap s.wallets u { w with
               availableUSD := w.availableUSD - a,
               lockedUSD := w.lockedUSD + a, updatedAt := t } } := by
  unfold Store.LockFunds at h
  cases hl : lookupMap s.wallets u with
  | none => rw [hl] at h; simp at h
  | some w =>
    rw [hl] at h
    by_cases hlt : w.availableUSD < a
    · simp [hlt] at h
    · simp only [hlt, if_false] at h
      exact ⟨w, rfl, hlt, (Prod.mk.injEq _ _ _ _ ▸ h).2.symm⟩

/-- `LockFunds` only ever fails with `walletNotFound` or
`insufficientFunds`. -/
theorem LockFunds_error_kind {s : Store} {u : String} {a : USD} {oid : String}
    {t : Int} {e : StoreError} {s₁ : Store}
    (h : s.LockFunds u a oid t = (.error e, s₁)) :
    e = .walletNotFound ∨ e = .insufficientFunds := by
  unfold Store.LockFunds at h
  cases hl : lookupMap s.wallets u with
  | none =>
    rw [hl] at h
    simp only [Prod.mk.injEq, Except.error.injEq] at h
    exact .inl h.1.symm
  | some w =>
    rw [hl] at h
    by_cases hlt : w.availableUSD < a
    · simp only [hlt, if_true, Prod.mk.injEq, Except.error.injEq] at h
      exact .inr h.1.symm
    · simp [hlt] at h

/-- A failed `LockFunds` returns the store unchanged. -/
theorem LockFunds_error {s : Store} {u : String} {a : USD} {oid : String}
    {t : Int} {e : StoreError} {s₁ : Store}
    (h : s.LockFunds u a oid t = (.error e, s₁)) : s₁ = s := by
  unfold Store.LockFunds at h
  cases hl : lookupMap s.wallets u with
  | none => rw [hl] at h; exact (Prod.mk.injEq _ _ _ _ ▸ h).2.symm
  | some w =>
    rw [hl] at h
    by_cases hlt : w.availableUSD < a
    · simp only [hlt, if_true] at h
      exact (Prod.mk.injEq _ _ _ _ ▸ h).2.symm
    · simp [hlt] at h

/-! ## Preservation of the wallet invariant -/

theorem walletsNonneg_insert {s : Store} {u : String} {w' : Wallet}
    (hinv : WalletsNonneg s) (h1 : 0 ≤ w'.availableUSD)
    (h2 : 0 ≤ w'.lockedUSD) :
    ∀ kw ∈ insertMap s.wallets u w',
      0 ≤ kw.2.availableUSD ∧ 0 ≤ kw.2.lockedUSD := by
  intro kw hkw
  rcases mem_insertMap hkw with rfl | hmem
  · exact ⟨h1, h2⟩
  · exact hinv _ hmem

theorem walletsNonneg_of_wallets_eq {s s' : Store} (h : s'.wallets = s.wallets)
    (hinv : WalletsNonneg s) : WalletsNonneg s' := by
  intro kw hkw
  exact hinv kw (h ▸ hkw)

/-- The effect of `CreateOrder` on the wallet table: either untouched (any
failure) or the caller's wallet with the collateral moved from available to
locked (success). -/
theorem CreateOrder_wallets (s : Store) (uid mt et side otyp : String)
    (q p : Int) (ip : String) (now : Int) :
    ((s.CreateOrder uid mt et side otyp q p ip now).2).wallets = s.wallets ∨
    ∃ w, lookupMap s.wallets uid = some w ∧
      ¬ w.availableUSD < requiredCollateralUSD side q p ∧
      ((s.CreateOrder uid mt et side otyp q p ip now).2).wallets =
        insertMap s.wallets uid { w with
          availableUSD := w.availableUSD - requiredCollateralUSD side q p,
          lockedUSD := w.lockedUSD + requiredCollateralUSD side q p,
          updatedAt := now } := by
  unfold Store.CreateOrder
  split
  · exact .inl rfl
  · split
    · exact .inl rfl
    · split
      · exact .inl rfl
      · split
        · exact .inl rfl
        · simp only []
          split
          · exact .inl rfl
          · split
            case _ e' s₁ hlf => exact .inl (by rw [LockFunds_error hlf])
            case _ u s₁ hlf =>
              obtain ⟨w, hw, hge, rfl⟩ := LockFunds_ok hlf
              exact .inr ⟨w, hw, hge, by simp [Store.LogAudit, Store.generateID]⟩

/-- One precondition-respecting Store call preserves the wallet invariant. -/
theorem walletsNonneg_applyOp (s : Store) (op : StoreOp) (t : Int)
    (hinv : WalletsNonneg s) (hok : s.opOk op = true) :
    WalletsNonneg (s.applyOp op t) := by
  cases op with
  | deposit u a ref ip =>
    have ha : (0 : Int) ≤ a := by simpa [Store.opOk] using hok
    simp only [Store.applyOp, Store.Deposit]
    cases hl : lookupMap s.wallets u with
    | none => exact hinv
    | some w =>
      have hw := hinv _ (lookupMap_mem hl)
      have hw1 : (0 : Int) ≤ w.availableUSD := hw.1
      simp only [Store.LogAudit, Store.generateID]
      refine walletsNonneg_insert hinv ?_ ?_
      · show (0 : Int) ≤ w.availableUSD + a
        exact Int.add_nonneg hw1 ha
      · exact hw.2
  | lockFunds u a oid =>
    have ha : (0 : Int) ≤ a := by simpa [Store.opOk] using hok
    simp only [Store.applyOp, Store.LockFunds]
    cases hl : lookupMap s.wallets u with
    | none => exact hinv
    | some w =>
      have hw := hinv _ (lookupMap_mem hl)
      have hw1 : (0 : Int) ≤ w.availableUSD := hw.1
      have hw2 : (0 : Int) ≤ w.lockedUSD := hw.2
      by_cases hlt : w.availableUSD < a
      · simp only [hlt, if_true]
        exact hinv
      · have hle : a ≤ w.availableUSD := not_lt.mp hlt
        simp only [hlt, if_false]
        refine walletsNonneg_insert hinv ?_ ?_
        · show (0 : Int) ≤ w.availableUSD - a
          exact Int.sub_nonneg.mpr hle
        · show (0 : Int) ≤ w.lockedUSD + a
          exact Int.add_nonneg hw2 ha
  | unlockFunds u a oid =>
    simp only [Store.applyOp, Store.UnlockFunds]
    cases hl : lookupMap s.wallets u with
    | none => exact hinv
    | some w =>
      have hw := hinv _ (lookupMap_mem hl)
      have hw1 : (0 : Int) ≤ w.availableUSD := hw.1
      have hw2 : (0 : Int) ≤ w.lockedUSD := hw.2
      obtain ⟨ha1, ha2⟩ : (0 : Int) ≤ a ∧ a ≤ w.lockedUSD := by
        simpa [Store.opOk, hl] using hok
      refine walletsNonneg_insert hinv ?_ ?_
      · show (0 : Int) ≤ w.availableUSD + a
        exact Int.add_nonneg hw1 ha1
      · show (0 : Int) ≤ w.lockedUSD - a
        exact Int.sub_nonneg.mpr ha2
  | settleFunds u l a oid ip =>
    simp only [Store.applyOp, Store.SettleFunds]
    cases hl : lookupMap s.wallets u with
    | none => exact hinv
    | some w =>
      have hw := hinv _ (lookupMap_mem hl)
      have hw1 : (0 : Int) ≤ w.availableUSD := hw.1
      have hw2 : (0 : Int) ≤ w.lockedUSD := hw.2
      obtain ⟨ha1, ha2⟩ : (0 : Int) ≤ a ∧ l ≤ w.lockedUSD := by
        simpa [Store.opOk, hl] using hok
      simp only [Store.generateID]
      refine walletsNonneg_insert hinv ?_ ?_
      · show (0 : Int) ≤ w.availableUSD + a
        exact Int.add_nonneg hw1 ha1
      · show (0 : Int) ≤ w.lockedUSD - l
        exact Int.sub_nonneg.mpr ha2
  | createOrder u mt et sd ot q p ip =>
    have hc : (0 : Int) ≤ requiredCollateralUSD sd q p := by
      simpa [Store.opOk] using hok
    simp only [Store.applyOp]
    rcases CreateOrder_wallets s u mt et sd ot q p ip t with h | ⟨w, hw, hge, h⟩
    · exact walletsNonneg_of_wallets_eq h hinv
    · intro kw hkw
      rw [h] at hkw
      have hwb := hinv _ (lookupMap_mem hw)
      have hwb1 : (0 : Int) ≤ w.availableUSD := hwb.1
      have hwb2 : (0 : Int) ≤ w.lockedUSD := hwb.2
      have hle : requiredCollateralUSD sd q p ≤ w.availableUSD := not_lt.mp hge
      rcases mem_insertMap hkw with rfl | hmem
      · constructor
        · show (0 : Int) ≤ w.availableUSD - requiredCollateralUSD sd q p
          exact Int.sub_nonneg.mpr hle
        · show (0 : Int) ≤ w.lockedUSD + requiredCollateralUSD sd q p
          exact Int.add_nonneg hwb2 hc
      · exact hinv _ hmem

/-! ## Claim C3: an active global halt halts every ticker -/

/-- C3: in any store state whose `"GLOBAL"` halt key holds an active halt
record, `IsTradingHalted` returns `true` for every market ticker — including
tickers for which no record of any kind exists. -/
theorem claim_C3_global_halt_covers_all_tickers (s : Store) (ticker : String)
    (h : EmergencyHalt) (hlook : lookupMap s.halts "GLOBAL" = some h)
    (hact : h.isActive = true) : s.IsTradingHalted ticker = true := by
  simp [Store.IsTradingHalted, hlook, hact]

/-- Witness for C3: a store holding only an active global halt reports every
never-seen ticker as halted. -/
theorem claim_C3_witness :
    lookupMap globalHaltStore.halts "GLOBAL" = some globalHaltRecord ∧
    globalHaltRecord.isActive = true ∧
    globalHaltStore.IsTradingHalted "NEVER-SEEN-TICKER" = true :=
  ⟨by decide, by decide,
   claim_C3_global_halt_covers_all_tickers globalHaltStore "NEVER-SEEN-TICKER"
     globalHaltRecord (by decide) (by decide)⟩

/-! ## Claim C10: a halt of the literal ticker "GLOBAL" acts as a global halt -/

/-- C10: `InitiateEmergencyHalt` on the non-empty market ticker `"GLOBAL"`
stores the new active halt under the reserved global key, so afterwards
`IsTradingHalted` is `true` for every market ticker — a market-scoped halt of
this one ticker is indistinguishable from a global halt. -/
theorem claim_C10_GLOBAL_ticker_halt_is_global (s : Store)
    (reason initiatedBy : String) (now : Int) (ticker : String) :
    lookupMap ((s.InitiateEmergencyHalt "GLOBAL" reason initiatedBy now).2).halts
        "GLOBAL" = some (s.InitiateEmergencyHalt "GLOBAL" reason initiatedBy now).1 ∧
    (s.InitiateEmergencyHalt "GLOBAL" reason initiatedBy now).1.isActive = true ∧
    ((s.InitiateEmergencyHalt "GLOBAL" reason initiatedBy now).2).IsTradingHalted
        ticker = true := by
  refine ⟨?_, rfl, ?_⟩
  · simp [Store.InitiateEmergencyHalt, Store.LogAudit, Store.generateID,
      lookupMap_insertMap_self]
  · simp [Store.InitiateEmergencyHalt, Store.LogAudit, Store.generateID,
      Store.IsTradingHalted, lookupMap_insertMap_self]

/-! ## Claim C5: LockFunds then UnlockFunds of the same amount round-trips -/

/-- C5: a successful `LockFunds(u, a)` immediately followed by
`UnlockFunds(u, a)` restores the wallet's available and locked balances to
exactly their values before the lock. -/
theorem claim_C5_lock_unlock_roundtrip (s : Store) (u : String) (a : USD)
    (oid oid' : String) (t t' : Int) (s₁ s₂ : Store) (w : Wallet)
    (hw : lookupMap s.wallets u = some w)
    (h1 : s.LockFunds u a oid t = (.ok (), s₁))
    (h2 : s₁.UnlockFunds u a oid' t' = (.ok (), s₂)) :
    ∃ w₂, lookupMap s₂.wallets u = some w₂ ∧
      w₂.availableUSD = w.availableUSD ∧ w₂.lockedUSD = w.lockedUSD := by
  obtain ⟨w₀, hw₀, -, rfl⟩ := LockFunds_ok h1
  rw [hw₀] at hw
  injection hw with hww
  subst hww
  unfold Store.UnlockFunds at h2
  rw [lookupMap_insertMap_self] at h2
  simp only [Prod.mk.injEq, true_and] at h2
  rw [← h2]
  refine ⟨_, lookupMap_insertMap_self _ _ _, ?_, ?_⟩ <;> simp

/-- Witness for C5: locking $20 of a $100/$0 wallet and unlocking it again
restores the $100/$0 split. -/
theorem claim_C5_witness :
    lookupMap baseStore.wallets "u1" = some (testWallet 10000 0) ∧
    baseStore.LockFunds "u1" 2000 "o1" 3 =
      (.ok (), (baseStore.LockFunds "u1" 2000 "o1" 3).2) ∧
    (∃ w₂, lookupMap (((baseStore.LockFunds "u1" 2000 "o1" 3).2).UnlockFunds
          "u1" 2000 "o1" 4).2.wallets "u1" = some w₂ ∧
      w₂.availableUSD = (testWallet 10000 0).availableUSD ∧
      w₂.lockedUSD = (testWallet 10000 0).lockedUSD) :=
  ⟨by decide, by decide,
   claim_C5_lock_unlock_roundtrip baseStore "u1" 2000 "o1" "o1" 3 4
     (baseStore.LockFunds "u1" 2000 "o1" 3).2
     (((baseStore.LockFunds "u1" 2000 "o1" 3).2).UnlockFunds "u1" 2000 "o1" 4).2
     (testWallet 10000 0) (by decide) (by decide) (by decide)⟩

/-! ## Claim C1: CreateOrder is all-or-nothing with respect to the wallet -/

/-- C1: `CreateOrder` either fully succeeds — the order is persisted with
status `pending`, the collateral is moved from available to locked in the
caller's wallet, and exactly one audit entry is appended — or it returns a
typed error and leaves every wallet (in particular the caller's available and
locked balances) exactly as it was; no failure path mutates the wallets. -/
theorem claim_C1_CreateOrder_atomic (s : Store)
    (uid mt et side otyp : String) (q p : Int) (ip : String) (now : Int) :
    (∀ e s', s.CreateOrder uid mt et side otyp q p ip now = (.error e, s') →
        s'.wallets = s.wallets) ∧
    (∀ o s', s.CreateOrder uid mt et side otyp q p ip now = (.ok o, s') →
        o.status = OrderStatusPending ∧
        lookupMap s'.orders o.id = some o ∧
        (∃ entry, s'.auditLog = s.auditLog ++ [entry]) ∧
        (∃ w, lookupMap s.wallets uid = some w ∧
          lookupMap s'.wallets uid = some { w with
            availableUSD := w.availableUSD - requiredCollateralUSD side q p,
            lockedUSD := w.lockedUSD + requiredCollateralUSD side q p,
            updatedAt := now })) := by
  constructor
  · intro e s' heq
    unfold Store.CreateOrder at heq
    split at heq
    · simp only [Prod.mk.injEq] at heq
      obtain ⟨-, rfl⟩ := heq
      rfl
    · split at heq
      · simp only [Prod.mk.injEq] at heq
        obtain ⟨-, rfl⟩ := heq
        rfl
      · split at heq
        · simp only [Prod.mk.injEq] at heq
          obtain ⟨-, rfl⟩ := heq
          rfl
        · split at heq
          · simp only [Prod.mk.injEq] at heq
            obtain ⟨-, rfl⟩ := heq
            rfl
          · simp only [] at heq
            split at heq
            · simp only [Store.CreateComplianceAlert, Store.generateID,
                Prod.mk.injEq] at heq
              obtain ⟨-, rfl⟩ := heq
              rfl
            · split at heq
              case _ e' s₁ hlf =>
                simp only [Prod.mk.injEq] at heq
                obtain ⟨-, rfl⟩ := heq
                rw [LockFunds_error hlf]
              case _ u s₁ hlf =>
                simp only [Store.LogAudit, Store.generateID,
                  Prod.mk.injEq] at heq
                exact absurd heq.1 (by simp)
  · intro o s' heq
    unfold Store.CreateOrder at heq
    split at heq
    · simp at heq
    · split at heq
      · simp at heq
      · split at heq
        · simp at heq
        · split at heq
          · simp at heq
          · simp only [] at heq
            split at heq
            · simp only [Store.CreateComplianceAlert, Store.generateID,
                Prod.mk.injEq] at heq
              exact absurd heq.1 (by simp)
            · split at heq
              case _ e' s₁ hlf => simp at heq
              case _ u s₁ hlf =>
                obtain ⟨w, hw, -, rfl⟩ := LockFunds_ok hlf
                simp only [Store.LogAudit, Store.generateID,
                  Prod.mk.injEq, Except.ok.injEq] at heq
                obtain ⟨rfl, rfl⟩ := heq
                refine ⟨rfl, ?_, ⟨_, rfl⟩, w, hw, ?_⟩
                · exact lookupMap_insertMap_self _ _ _
                · exact lookupMap_insertMap_self _ _ _

/-- Witness for C1: on a store with a verified user `"u1"` holding a
$100/$0 wallet, a `yes 50 @ 60¢` order succeeds, is stored as `pending`,
appends one audit entry, and moves $30 from available to locked; and for the
unknown user `"ghost"` the call fails leaving the wallets untouched. -/
theorem claim_C1_witness :
    baseStore.CreateOrder "u1" "M" "E" OrderSideYes "limit" 50 60 "ip" 7 =
      (.ok c1Order, c1Store) ∧
    (c1Order.status = OrderStatusPending ∧
     lookupMap c1Store.orders c1Order.id = some c1Order ∧
     (∃ entry, c1Store.auditLog = baseStore.auditLog ++ [entry]) ∧
     (∃ w, lookupMap baseStore.wallets "u1" = some w ∧
       lookupMap c1Store.wallets "u1" = some { w with
         availableUSD := w.availableUSD - requiredCollateralUSD OrderSideYes 50 60,
         lockedUSD := w.lockedUSD + requiredCollateralUSD OrderSideYes 50 60,
         updatedAt := 7 })) ∧
    ((baseStore.CreateOrder "ghost" "M" "E" OrderSideYes "limit" 50 60 "ip" 7).2).wallets
      = baseStore.wallets :=
  ⟨by decide,
   (claim_C1_CreateOrder_atomic baseStore "u1" "M" "E" OrderSideYes "limit"
      50 60 "ip" 7).2 c1Order c1Store (by decide),
   (claim_C1_CreateOrder_atomic baseStore "ghost" "M" "E" OrderSideYes "limit"
      50 60 "ip" 7).1 .userNotFound
     (baseStore.CreateOrder "ghost" "M" "E" OrderSideYes "limit" 50 60 "ip" 7).2
     (by decide)⟩

/-! ## Claim C4: the position-limit failure raises exactly one alert -/

/-- C4: whenever `CreateOrder` fails because current exposure plus required
collateral exceeds the user's position limit, it returns
`positionLimitExceeded` and appends exactly one compliance alert of type
`position_limit` with severity `high` referencing that user and market; no
other failure path (and no success) of `CreateOrder` adds an alert. -/
theorem claim_C4_positionLimit_alert (s : Store)
    (uid mt et side otyp : String) (q p : Int) (ip : String) (now : Int) :
    (∀ s', s.CreateOrder uid mt et side otyp q p ip now =
        (.error .positionLimitExceeded, s') →
      (∃ user, lookupMap s.users uid = some user ∧
        user.positionLimitUSD <
          s.GetUserExposure uid + requiredCollateralUSD side q p) ∧
      (∃ a, s'.alerts = s.alerts ++ [a] ∧ a.typ = "position_limit" ∧
        a.severity = "high" ∧ a.userID = uid ∧ a.marketTicker = mt)) ∧
    (∀ e s', s.CreateOrder uid mt et side otyp q p ip now = (.error e, s') →
      e ≠ .positionLimitExceeded → s'.alerts = s.alerts) ∧
    (∀ o s', s.CreateOrder uid mt et side otyp q p ip now = (.ok o, s') →
      s'.alerts = s.alerts) := by
  refine ⟨?_, ?_, ?_⟩
  · intro s' heq
    unfold Store.CreateOrder at heq
    split at heq
    · simp at heq
    · split at heq
      · simp at heq
      · rename_i user huser
        split at heq
        · simp at heq
        · split at heq
          · simp at heq
          · simp only [] at heq
            split at heq
            · rename_i hlimit
              simp only [Store.CreateComplianceAlert, Store.generateID,
                Prod.mk.injEq] at heq
              obtain ⟨-, rfl⟩ := heq
              exact ⟨⟨user, huser, hlimit⟩, ⟨_, rfl, rfl, rfl, rfl, rfl⟩⟩
            · split at heq
              case _ e' s₁ hlf =>
                simp only [Prod.mk.injEq, Except.error.injEq] at heq
                obtain ⟨heq1, rfl⟩ := heq
                rcases LockFunds_error_kind hlf with rfl | rfl <;> simp at heq1
              case _ u s₁ hlf =>
                simp only [Store.LogAudit, Store.generateID,
                  Prod.mk.injEq] at heq
                exact absurd heq.1 (by simp)
  · intro e s' heq hne
    unfold Store.CreateOrder at heq
    split at heq
    · simp only [Prod.mk.injEq] at heq
      obtain ⟨-, rfl⟩ := heq
      rfl
    · split at heq
      · simp only [Prod.mk.injEq] at heq
        obtain ⟨-, rfl⟩ := heq
        rfl
      · split at heq
        · simp only [Prod.mk.injEq] at heq
          obtain ⟨-, rfl⟩ := heq
          rfl
        · split at heq
          · simp only [Prod.mk.injEq] at heq
            obtain ⟨-, rfl⟩ := heq
            rfl
          · simp only [] at heq
            split at heq
            · simp only [Prod.mk.injEq, Except.error.injEq] at heq
              exact absurd heq.1.symm hne
            · split at heq
              case _ e' s₁ hlf =>
                simp only [Prod.mk.injEq] at heq
                obtain ⟨-, rfl⟩ := heq
                rw [LockFunds_error hlf]
              case _ u s₁ hlf =>
                simp only [Store.LogAudit, Store.generateID,
                  Prod.mk.injEq] at heq
                exact absurd heq.1 (by simp)
  · intro o s' heq
    unfold Store.CreateOrder at heq
    split at heq
    · simp at heq
    · split at heq
      · simp at heq
      · split at heq
        · simp at heq
        · split at heq
          · simp at heq
          · simp only [] at heq
            split at heq
            · simp at heq
            · split at heq
              case _ e' s₁ hlf => simp at heq
              case _ u s₁ hlf =>
                obtain ⟨w, hw, -, rfl⟩ := LockFunds_ok hlf
                simp only [Store.LogAudit, Store.generateID,
                  Prod.mk.injEq, Except.ok.injEq] at heq
                obtain ⟨-, rfl⟩ := heq
                rfl

/-- Witness for C4: with a $100 position limit and a `yes 300 @ 50¢` order
($150 collateral), `CreateOrder` fails with `positionLimitExceeded` and
appends exactly one `position_limit` / `high` alert for that user and
market. -/
theorem claim_C4_witness :
    c4Store.CreateOrder "u1" "M" "E" OrderSideYes "limit" 300 50 "ip" 9 =
      (.error .positionLimitExceeded,
       (c4Store.CreateOrder "u1" "M" "E" OrderSideYes "limit" 300 50 "ip" 9).2) ∧
    ((∃ user, lookupMap c4Store.users "u1" = some user ∧
        user.positionLimitUSD <
          c4Store.GetUserExposure "u1" + requiredCollateralUSD OrderSideYes 300 50) ∧
     (∃ a, ((c4Store.CreateOrder "u1" "M" "E" OrderSideYes "limit"
          300 50 "ip" 9).2).alerts = c4Store.alerts ++ [a] ∧
        a.typ = "position_limit" ∧ a.severity = "high" ∧
        a.userID = "u1" ∧ a.marketTicker = "M")) :=
  ⟨by decide,
   (claim_C4_positionLimit_alert c4Store "u1" "M" "E" OrderSideYes "limit"
      300 50 "ip" 9).1
     (c4Store.CreateOrder "u1" "M" "E" OrderSideYes "limit" 300 50 "ip" 9).2
     (by decide)⟩

/-! ## Order-table effects of the Store operations -/

theorem Deposit_orders (s : Store) (u : String) (a : USD) (ref ip : String)
    (t : Int) : ((s.Deposit u a ref ip t).2).orders = s.orders := by
  unfold Store.Deposit
  cases lookupMap s.wallets u <;> rfl

theorem LockFunds_orders (s : Store) (u : String) (a : USD) (oid : String)
    (t : Int) : ((s.LockFunds u a oid t).2).orders = s.orders := by
  unfold Store.LockFunds
  cases lookupMap s.wallets u with
  | none => rfl
  | some w => by_cases hlt : w.availableUSD < a <;> simp [hlt]

theorem UnlockFunds_orders (s : Store) (u : String) (a : USD) (oid : String)
    (t : Int) : ((s.UnlockFunds u a oid t).2).orders = s.orders := by
  unfold Store.UnlockFunds
  cases lookupMap s.wallets u <;> rfl

theorem SettleFunds_orders (s : Store) (u : String) (l a : USD)
    (oid ip : String) (t : Int) :
    ((s.SettleFunds u l a oid ip t).2).orders = s.orders := by
  unfold Store.SettleFunds
  cases lookupMap s.wallets u <;> rfl

theorem createOrUpdatePosition_orders (s : Store) (o : Order) (t : Int) :
    (s.createOrUpdatePosition o t).orders = s.orders := by
  simp only [Store.createOrUpdatePosition, Store.generateID]
  split
  · split <;> rfl
  · rfl

/-- `findOpenPositionID` reads only the position table. -/
theorem findOpenPositionID_congr {s s' : Store} (h : s'.positions = s.positions)
    (posIDs : List String) (mt sd : String) :
    findOpenPositionID s' posIDs mt sd = findOpenPositionID s posIDs mt sd := by
  induction posIDs with
  | nil => rfl
  | cons pid rest ih =>
    rw [findOpenPositionID, findOpenPositionID, h, ih]

/-- Merging a fill into a found open position adds the order's filled
quantity and collateral to it. -/
theorem createOrUpdatePosition_merge (s : Store) (o : Order) (t : Int)
    (pid : String) (pos : Position)
    (hfind : findOpenPositionID s
      ((lookupMap s.positionsByUser o.userID).getD [])
      o.marketTicker o.side = some pid)
    (hpos : lookupMap s.positions pid = some pos) :
    lookupMap (s.createOrUpdatePosition o t).positions pid =
      some { pos with
        quantity := pos.quantity + o.filledQuantity,
        costBasisUSD := pos.costBasisUSD + o.collateralUSD,
        avgPriceCents := (pos.costBasisUSD + o.collateralUSD).tdiv
          (pos.quantity + o.filledQuantity),
        updatedAt := t } := by
  simp only [Store.createOrUpdatePosition, hfind, hpos]
  exact lookupMap_insertMap_self _ _ _

/-! ## Claim C6: order status one-directionality (corrected) -/

/-- C6 as stated is false on the code: `MockFillOrder` never inspects the
order's current status.  Concretely, applying it to the *cancelled* order
`"o1"` flips the order to `filled` and merges its 10 contracts into the open
position `"p1"`, growing it from 5 to 15 contracts. -/
theorem claim_C6_counterexample :
    (lookupMap c6Store.orders "o1").map Order.status =
      some OrderStatusCancelled ∧
    (lookupMap ((c6Store.MockFillOrder "o1" 50 7).2).orders "o1").map
      Order.status = some OrderStatusFilled ∧
    (lookupMap c6Store.positions "p1").map Position.quantity = some 5 ∧
    (lookupMap ((c6Store.MockFillOrder "o1" 50 7).2).positions "p1").map
      Position.quantity = some 15 := by
  decide

/-- C6 amended: the one-directionality the spec asserts is not enforced at
the fill path.  The balance operations (`Deposit`, `LockFunds`,
`UnlockFunds`, `SettleFunds`) never modify any stored order, but
`MockFillOrder` sets the status of whatever existing order it is given to
`filled` regardless of its prior status — in particular it resurrects a
cancelled order — and unconditionally re-applies the fill effects, merging
the order's quantity and collateral into the matching open position again. -/
theorem claim_C6_amended_fill_unguarded :
    (∀ (s : Store) (op : StoreOp) (t : Int), op.isWalletOp = true →
      (s.applyOp op t).orders = s.orders) ∧
    (∀ (s : Store) (oid : String) (fp t : Int) (order : Order),
      lookupMap s.orders oid = some order →
      lookupMap ((s.MockFillOrder oid fp t).2).orders oid =
        some { order with
          status := OrderStatusFilled,
          filledQuantity := order.quantity, filledPriceCents := fp,
          filledAt := some t, updatedAt := t } ∧
      ∀ pid pos,
        findOpenPositionID s
          ((lookupMap s.positionsByUser order.userID).getD [])
          order.marketTicker order.side = some pid →
        lookupMap s.positions pid = some pos →
        lookupMap ((s.MockFillOrder oid fp t).2).positions pid =
          some { pos with
            quantity := pos.quantity + order.quantity,
            costBasisUSD := pos.costBasisUSD + order.collateralUSD,
            avgPriceCents := (pos.costBasisUSD + order.collateralUSD).tdiv
              (pos.quantity + order.quantity),
            updatedAt := t }) := by
  constructor
  · intro s op t hop
    cases op with
    | deposit u a ref ip => exact Deposit_orders s u a ref ip t
    | lockFunds u a oid => exact LockFunds_orders s u a oid t
    | unlockFunds u a oid => exact UnlockFunds_orders s u a oid t
    | settleFunds u l a oid ip => exact SettleFunds_orders s u l a oid ip t
    | createOrder u mt et sd ot q p ip => simp [StoreOp.isWalletOp] at hop
  · intro s oid fp t order h
    constructor
    · simp only [Store.MockFillOrder, h]
      rw [createOrUpdatePosition_orders]
      exact lookupMap_insertMap_self _ _ _
    · intro pid pos hfind hpos
      simp only [Store.MockFillOrder, h]
      refine createOrUpdatePosition_merge _ _ t pid pos
        ((findOpenPositionID_congr ?_ _ _ _).trans hfind) hpos
      rfl

/-- Witness for the amended C6: a deposit leaves the order table alone, and
re-filling the cancelled order `"o1"` of `c6Store` marks it `filled` and
grows position `"p1"` by the order's quantity. -/
theorem claim_C6_witness :
    (baseStore.applyOp (.deposit "u1" 100 "r" "ip") 1).orders =
      baseStore.orders ∧
    lookupMap ((c6Store.MockFillOrder "o1" 50 7).2).orders "o1" =
      some { c6Order with
        status := OrderStatusFilled,
        filledQuantity := c6Order.quantity, filledPriceCents := 50,
        filledAt := some 7, updatedAt := 7 } ∧
    lookupMap ((c6Store.MockFillOrder "o1" 50 7).2).positions "p1" =
      some { c6Pos with
        quantity := c6Pos.quantity + c6Order.quantity,
        costBasisUSD := c6Pos.costBasisUSD + c6Order.collateralUSD,
        avgPriceCents := (c6Pos.costBasisUSD + c6Order.collateralUSD).tdiv
          (c6Pos.quantity + c6Order.quantity),
        updatedAt := 7 } :=
  ⟨claim_C6_amended_fill_unguarded.1 baseStore (.deposit "u1" 100 "r" "ip") 1
     (by decide),
   (claim_C6_amended_fill_unguarded.2 c6Store "o1" 50 7 c6Order (by decide)).1,
   (claim_C6_amended_fill_unguarded.2 c6Store "o1" 50 7 c6Order (by decide)).2
     "p1" c6Pos (by decide) (by decide)⟩

/-! ## Key-uniqueness lemmas for the map model -/

theorem mem_keys_insertMap {α : Type} {m : List (String × α)} {k x : String}
    {v : α} (hx : x ∈ (insertMap m k v).map Prod.fst) :
    x = k ∨ x ∈ m.map Prod.fst := by
  obtain ⟨q, hq, rfl⟩ := List.mem_map.mp hx
  rcases mem_insertMap hq with rfl | hmem
  · exact .inl rfl
  · exact .inr (List.mem_map_of_mem _ hmem)

theorem keysNodup_insertMap {α : Type} {m : List (String × α)} (k : String)
    (v : α) (h : keysNodup m) : keysNodup (insertMap m k v) := by
  induction m with
  | nil => simp [insertMap, keysNodup]
  | cons p rest ih =>
    obtain ⟨k₀, v₀⟩ := p
    by_cases h₀ : k₀ = k
    · subst h₀
      rw [keysNodup] at h ⊢
      simpa [insertMap] using h
    · rw [keysNodup] at h ⊢
      simp only [insertMap, if_neg h₀, List.map_cons, List.nodup_cons] at h ⊢
      obtain ⟨hnot, hrest⟩ := h
      refine ⟨fun hx => ?_, ih hrest⟩
      rcases mem_keys_insertMap hx with rfl | hx'
      · exact h₀ rfl
      · exact hnot hx'

/-! ## Claim C7: re-halting a key (corrected) -/

/-- C7 as stated is false on the code: `InitiateEmergencyHalt` performs no
lookup of an existing halt.  Re-halting `"MKT"`, which already holds an
active halt record, stores a record whose id and start time differ from the
existing record's — a fresh record replaces the old one instead of the old
record being updated in place. -/
theorem claim_C7_counterexample :
    lookupMap c7Store.halts "MKT" = some c7OldHalt ∧
    c7OldHalt.isActive = true ∧
    (∃ h', lookupMap ((c7Store.InitiateEmergencyHalt "MKT" "r1" "b1" 5).2).halts
        "MKT" = some h' ∧ h'.id ≠ c7OldHalt.id ∧
      h'.startedAt ≠ c7OldHalt.startedAt ∧ h'.isActive = true) := by
  decide

/-- C7 amended: `InitiateEmergencyHalt` *replaces* the map entry for its key
(market ticker, or the reserved `"GLOBAL"` key for the empty ticker) with a
freshly-built active record carrying the new reason and initiator (and a new
id and start time); other keys are untouched; and because halts are stored
in a map keyed by ticker, at most one halt record — hence at most one active
one — exists per key at any time. -/
theorem claim_C7_amended_halt_replaces (s : Store)
    (marketTicker reason initiatedBy : String) (now : Int) :
    lookupMap ((s.InitiateEmergencyHalt marketTicker reason initiatedBy now).2).halts
        (if marketTicker = "" then "GLOBAL" else marketTicker) =
      some (s.InitiateEmergencyHalt marketTicker reason initiatedBy now).1 ∧
    (s.InitiateEmergencyHalt marketTicker reason initiatedBy now).1.isActive = true ∧
    (s.InitiateEmergencyHalt marketTicker reason initiatedBy now).1.reason = reason ∧
    (s.InitiateEmergencyHalt marketTicker reason initiatedBy now).1.initiatedBy
      = initiatedBy ∧
    (s.InitiateEmergencyHalt marketTicker reason initiatedBy now).1.startedAt = now ∧
    (∀ k, k ≠ (if marketTicker = "" then "GLOBAL" else marketTicker) →
      lookupMap ((s.InitiateEmergencyHalt marketTicker reason initiatedBy now).2).halts k
        = lookupMap s.halts k) ∧
    (keysNodup s.halts →
      keysNodup ((s.InitiateEmergencyHalt marketTicker reason initiatedBy now).2).halts) := by
  refine ⟨?_, rfl, rfl, rfl, rfl, ?_, ?_⟩
  · simp only [Store.InitiateEmergencyHalt, Store.LogAudit, Store.generateID]
    exact lookupMap_insertMap_self _ _ _
  · intro k hk
    simp only [Store.InitiateEmergencyHalt, Store.LogAudit, Store.generateID]
    exact lookupMap_insertMap_ne _ _ _ _ hk
  · intro h
    simp only [Store.InitiateEmergencyHalt, Store.LogAudit, Store.generateID]
    exact keysNodup_insertMap _ _ h

/-- Witness for the amended C7: re-halting `"MKT"` on `c7Store` yields the
fresh stored record, leaves key `"OTHER"` untouched, and preserves
one-binding-per-key. -/
theorem claim_C7_witness :
    lookupMap ((c7Store.InitiateEmergencyHalt "MKT" "r1" "b1" 5).2).halts "MKT"
      = some (c7Store.InitiateEmergencyHalt "MKT" "r1" "b1" 5).1 ∧
    lookupMap ((c7Store.InitiateEmergencyHalt "MKT" "r1" "b1" 5).2).halts "OTHER"
      = lookupMap c7Store.halts "OTHER" ∧
    keysNodup c7Store.halts ∧
    keysNodup ((c7Store.InitiateEmergencyHalt "MKT" "r1" "b1" 5).2).halts :=
  ⟨(claim_C7_amended_halt_replaces c7Store "MKT" "r1" "b1" 5).1,
   (claim_C7_amended_halt_replaces c7Store "MKT" "r1" "b1" 5).2.2.2.2.2.1
     "OTHER" (by decide),
   by decide,
   (claim_C7_amended_halt_replaces c7Store "MKT" "r1" "b1" 5).2.2.2.2.2.2
     (by decide)⟩

/-! ## Claim C8: wash-trade detection (corrected) -/

/-- The pairwise scan triggers exactly when some pair `a` before `b` in the
list satisfies the code's (signed) wash condition. -/
theorem washScan_iff (orders : List Order) :
    washScan orders = true ↔
      ∃ a b, [a, b].Sublist orders ∧ washPair a b = true := by
  induction orders with
  | nil => simp [washScan]
  | cons o rest ih =>
    rw [washScan, Bool.or_eq_true, List.any_eq_true, ih]
    constructor
    · rintro (⟨b, hb, hw⟩ | ⟨a, b, hsub, hw⟩)
      · exact ⟨o, b, List.Sublist.cons₂ o (List.singleton_sublist.mpr hb), hw⟩
      · exact ⟨a, b, hsub.cons o, hw⟩
    · rintro ⟨a, b, hsub, hw⟩
      cases hsub with
      | cons _ h => exact .inr ⟨a, b, h, hw⟩
      | cons₂ _ h => exact .inl ⟨b, List.singleton_sublist.mp h, hw⟩

/-- `detectWashTrading` triggers exactly when some in-order pair satisfies
the code's signed condition (the `length < 2` guard is redundant). -/
theorem detectWashTrading_iff (orders : List Order) :
    detectWashTrading orders = true ↔
      ∃ a b, [a, b].Sublist orders ∧ washPair a b = true := by
  rw [detectWashTrading]
  by_cases hlen : orders.length < 2
  · rw [if_pos hlen]
    constructor
    · intro h
      exact absurd h (by simp)
    · rintro ⟨a, b, hsub, -⟩
      have h2 : 2 ≤ orders.length := by simpa using hsub.length_le
      exact absurd h2 (by omega)
  · rw [if_neg hlen]
    exact washScan_iff orders

/-- C8 as stated is false on the code: `detectWashTrading` compares the
*signed* timestamp difference `orders[j].CreatedAt − orders[i].CreatedAt`
with 60 s, so a same-market opposite-side pair 1000 seconds apart — far from
"within 60 seconds of each other" — still raises a `wash_trade` alert when
the later-created order appears first in the list; reversing the list makes
the alert disappear, so the check is not order-independent either. -/
theorem claim_C8_counterexample :
    specWashCondition [c8o1, c8o2] = false ∧
    ((AnalyzeTradePattern NewStore "u1" "M" [c8o1, c8o2] 3).1.filter
      (fun x => x.typ = "wash_trade")).length = 1 ∧
    ((AnalyzeTradePattern NewStore "u1" "M" [c8o2, c8o1] 3).1.filter
      (fun x => x.typ = "wash_trade")).length = 0 := by
  decide

/-- C8 amended: `AnalyzeTradePattern` raises a `wash_trade` alert of
severity `high` for the given user and market, exactly once per invocation,
if and only if the input list contains a pair of orders — `a` listed before
`b` — for the same market with opposite sides such that the *signed*
difference `b.createdAt − a.createdAt` is below 60 seconds.  (Any
opposite-side same-market pair whose later list element was created at or
before the earlier one also triggers, so the check depends on the input
ordering.) -/
theorem claim_C8_amended_washTrade (s : Store) (u m : String)
    (orders : List Order) (now : Int) :
    (detectWashTrading orders = true ↔
      ∃ a b, [a, b].Sublist orders ∧ washPair a b = true) ∧
    (detectWashTrading orders = true →
      ∃ alert, ((AnalyzeTradePattern s u m orders now).1.filter
          (fun x => x.typ = "wash_trade")) = [alert] ∧
        alert.typ = "wash_trade" ∧ alert.severity = "high" ∧
        alert.userID = u ∧ alert.marketTicker = m) ∧
    (detectWashTrading orders = false →
      ((AnalyzeTradePattern s u m orders now).1.filter
        (fun x => x.typ = "wash_trade")) = []) := by
  refine ⟨detectWashTrading_iff orders, ?_, ?_⟩
  · intro hw
    cases hsp : detectSpoofing orders <;> cases hlay : detectLayering orders <;>
      simp [AnalyzeTradePattern, hw, hsp, hlay,
        Store.CreateComplianceAlert, Store.generateID, List.filter]
  · intro hw
    cases hsp : detectSpoofing orders <;> cases hlay : detectLayering orders <;>
      simp [AnalyzeTradePattern, hw, hsp, hlay,
        Store.CreateComplianceAlert, Store.generateID, List.filter]

/-- Witness for the amended C8: the reversed far-apart pair triggers exactly
one `wash_trade`/`high` alert, and a single order triggers none. -/
theorem claim_C8_witness :
    detectWashTrading [c8o1, c8o2] = true ∧
    (∃ alert, ((AnalyzeTradePattern NewStore "u1" "M" [c8o1, c8o2] 3).1.filter
        (fun x => x.typ = "wash_trade")) = [alert] ∧
      alert.typ = "wash_trade" ∧ alert.severity = "high" ∧
      alert.userID = "u1" ∧ alert.marketTicker = "M") ∧
    detectWashTrading [c8o1] = false ∧
    ((AnalyzeTradePattern NewStore "u1" "M" [c8o1] 3).1.filter
      (fun x => x.typ = "wash_trade")) = [] :=
  ⟨by decide,
   (claim_C8_amended_washTrade NewStore "u1" "M" [c8o1, c8o2] 3).2.1 (by decide),
   by decide,
   (claim_C8_amended_washTrade NewStore "u1" "M" [c8o1] 3).2.2 (by decide)⟩

/-! ## Claim C9: the position-limit warning in ValidateOrder (corrected) -/

/-- C9 as stated is false on the code: the 80%-of-limit warning in
`ValidateOrder` is not suppressed when the limit itself is breached.  With a
$100 limit and a $150-margin order, the check reports the position-limit
*error* and the approaching-limit *warning* together. -/
theorem claim_C9_counterexample :
    (testUser 10000).positionLimitUSD <
      c4Store.GetUserExposure "u1" + requiredCollateralUSD OrderSideYes 300 50 ∧
    msgPositionLimitExceeded ∈
      ((NewSurveillanceEngine.ValidateOrder c4Store
        "u1" "M" OrderSideYes 300 50 0).1).errors ∧
    ((NewSurveillanceEngine.ValidateOrder c4Store
      "u1" "M" OrderSideYes 300 50 0).1).warnings = [msgApproachingLimit] := by
  decide

/-- C9 amended: for a user with an existing wallet and user record, the
position-limit warning is included exactly when current exposure plus
required margin exceeds 80% of the user's position limit — *including* when
the limit itself is breached.  A breach always produces the position-limit
error, and (for a positive limit) the warning as well, not instead. -/
theorem claim_C9_amended_warning (e : SurveillanceEngine) (store : Store)
    (u m side : String) (q p : Int) (now : Int) (w : Wallet) (user : User)
    (hw : lookupMap store.wallets u = some w)
    (hu : lookupMap store.users u = some user) :
    (((e.ValidateOrder store u m side q p now).1).warnings ≠ [] ↔
      user.positionLimitUSD * 8 <
        (store.GetUserExposure u + requiredCollateralUSD side q p) * 10) ∧
    (user.positionLimitUSD <
        store.GetUserExposure u + requiredCollateralUSD side q p →
      msgPositionLimitExceeded ∈
        ((e.ValidateOrder store u m side q p now).1).errors) ∧
    (0 < user.positionLimitUSD →
      user.positionLimitUSD <
        store.GetUserExposure u + requiredCollateralUSD side q p →
      ((e.ValidateOrder store u m side q p now).1).warnings ≠ []) := by
  refine ⟨?_, ?_, ?_⟩
  · simp only [SurveillanceEngine.ValidateOrder, hw, hu]
    by_cases hcond : user.positionLimitUSD * 8 <
        (store.GetUserExposure u + requiredCollateralUSD side q p) * 10 <;>
      simp [hcond]
  · intro hbr
    simp only [SurveillanceEngine.ValidateOrder, hw, hu]
    simp [hbr]
  · intro hpos hbr
    have hcond : user.positionLimitUSD * 8 <
        (store.GetUserExposure u + requiredCollateralUSD side q p) * 10 := by
      nlinarith [hbr, hpos]
    simp only [SurveillanceEngine.ValidateOrder, hw, hu]
    simp [hcond]

/-- Witness for the amended C9: at the $100-limit / $150-margin input the
warning-iff holds and the breach error is present. -/
theorem claim_C9_witness :
    lookupMap c4Store.wallets "u1" = some (testWallet 10000 0) ∧
    lookupMap c4Store.users "u1" = some (testUser 10000) ∧
    (((NewSurveillanceEngine.ValidateOrder c4Store
        "u1" "M" OrderSideYes 300 50 0).1).warnings ≠ [] ↔
      (testUser 10000).positionLimitUSD * 8 <
        (c4Store.GetUserExposure "u1" +
          requiredCollateralUSD OrderSideYes 300 50) * 10) ∧
    msgPositionLimitExceeded ∈
      ((NewSurveillanceEngine.ValidateOrder c4Store
        "u1" "M" OrderSideYes 300 50 0).1).errors :=
  ⟨by decide, by decide,
   (claim_C9_amended_warning NewSurveillanceEngine c4Store "u1" "M"
      OrderSideYes 300 50 0 (testWallet 10000 0) (testUser 10000)
      (by decide) (by decide)).1,
   (claim_C9_amended_warning NewSurveillanceEngine c4Store "u1" "M"
      OrderSideYes 300 50 0 (testWallet 10000 0) (testUser 10000)
      (by decide) (by decide)).2.1 (by decide)⟩

/-! ## Claim C2: wallet balance non-negativity (corrected) -/

/-- C2 as stated is false on the code: `UnlockFunds` subtracts the requested
amount from the locked balance with no check, so unlocking more than is
locked drives the locked balance negative.  Concretely: with `"u1"` holding
available $100 / locked $0, a single `UnlockFunds("u1", $20)` leaves
locked = −$20. -/
theorem claim_C2_counterexample :
    WalletsNonneg baseStore ∧
    ¬ WalletsNonneg (baseStore.applyOps [(.unlockFunds "u1" 2000 "o1", 1)]) := by
  decide

/-- C2 amended: wallet balances stay non-negative along every sequence of
`Deposit` / `LockFunds` / `UnlockFunds` / `SettleFunds` / `CreateOrder` calls
whose arguments respect `opOk` at each step — deposited and locked amounts
non-negative, unlocks bounded by the locked balance, settlements releasing at
most the locked balance and crediting a non-negative amount, and order
collateral non-negative.  (The code itself checks only `LockFunds`
sufficiency; the remaining bounds are caller obligations.) -/
theorem claim_C2_amended_walletsNonneg (s : Store) (ops : List (StoreOp × Int))
    (hinv : WalletsNonneg s) (hok : s.okTrace ops = true) :
    WalletsNonneg (s.applyOps ops) := by
  induction ops generalizing s with
  | nil => exact hinv
  | cons hd tl ih =>
    obtain ⟨op, t⟩ := hd
    rw [Store.okTrace, Bool.and_eq_true] at hok
    exact ih _ (walletsNonneg_applyOp s op t hinv hok.1) hok.2

/-- Witness for the amended C2: a five-step trace exercising every operation
keeps `"u1"`'s balances non-negative. -/
theorem claim_C2_witness :
    WalletsNonneg baseStore ∧ baseStore.okTrace c2Trace = true ∧
    WalletsNonneg (baseStore.applyOps c2Trace) :=
  ⟨by decide, by decide,
   claim_C2_amended_walletsNonneg baseStore c2Trace (by decide) (by decide)⟩

end KalshiDCM
